import Mathlib

/-!
Verification of the FishFight networking replication layer
(src/networking/client/game.rs and src/networking/server/game.rs),
as a shallow embedding in Lean.

Machine values: entity ids, network ids, player indices, ticks and
animation-pose snapshots are modelled as `Nat`; 3D vectors as triples of
rationals (the replication code only copies positions around, it does no
arithmetic on them).
-/

set_option autoImplicit false

namespace FishFight

/-- Bevy `Vec3`, components modelled as rationals. -/
structure Vec3 where
  x : ℚ
  y : ℚ
  z : ℚ
deriving DecidableEq, Repr

/-- `AnimationBankSprite` pose snapshot: the replication layer only clones and
assigns it, so it is modelled as an abstract identifier. -/
abbrev Sprite := Nat

/-- Logical simulation tick (networking/proto/tick.rs). -/
abbrev Tick := Nat

/-- `PlayerEvent` message from networking/proto/game.rs. -/
inductive PlayerEvent where
  | SpawnPlayer (pos : Vec3)
  | KillPlayer
  | GrabItem (netId : Nat)
  | DropItem (pos : Vec3)
deriving DecidableEq, Repr

/-- `PlayerState` unreliable snapshot: tick, position, pose. -/
structure PlayerState where
  tick : Tick
  pos : Vec3
  sprite : Sprite
deriving DecidableEq, Repr

/-- `PlayerEventFromServer`: server-relayed envelope adding origin attribution. -/
structure PlayerEventFromServer where
  player_idx : Nat
  kind : PlayerEvent
deriving DecidableEq, Repr

/-- `PlayerStateFromServer`: server-relayed unreliable snapshot envelope. -/
structure PlayerStateFromServer where
  player_idx : Nat
  state : PlayerState
deriving DecidableEq, Repr

/-- `GameEventFromServer` has the single variant
`SpawnItem { net_id, script, pos }`; the script handle is abstract. -/
structure GameEventFromServer where
  net_id : Nat
  script : Nat
  pos : Vec3
deriving DecidableEq, Repr

/-- `ClientMatchInfo`: which player index the local process controls. -/
structure ClientMatchInfo where
  player_idx : Nat
deriving DecidableEq, Repr

/-- Modelled from the spec: `ClientTicks` (networking/proto/tick.rs is not among
the given sources) maps a player index to the last applied tick; modelled as an
association list, first entry for a key wins. -/
abbrev ClientTicks := List (Nat × Tick)

/-- Stored high-water mark for a player index, if any. -/
def tickOf (ct : ClientTicks) (p : Nat) : Option Tick :=
  (ct.find? (fun e => e.1 == p)).map (fun e => e.2)

/-- Replace the first entry for `p` (or append one). -/
def setTick (ct : ClientTicks) (p : Nat) (t : Tick) : ClientTicks :=
  match ct with
  | [] => [(p, t)]
  | e :: rest => if e.1 = p then (p, t) :: rest else e :: setTick rest p t

/-- Modelled from the spec: `ClientTicks::is_latest(player_index, tick)` returns
true and records `tick` as the new high-water mark iff `tick` is strictly
greater than the stored value (or none is stored yet); returns false otherwise,
leaving state unchanged. -/
def is_latest (ct : ClientTicks) (p : Nat) (t : Tick) : Bool × ClientTicks :=
  match tickOf ct p with
  | none => (true, setTick ct p t)
  | some t0 => if t0 < t then (true, setTick ct p t) else (false, ct)

/-- Spec-side freshness predicate: the tick is strictly newer than the stored
high-water mark, or no mark is stored. -/
def tickFresh (ct : ClientTicks) (p : Nat) (t : Tick) : Bool :=
  match tickOf ct p with
  | none => true
  | some t0 => decide (t0 < t)

/-- Modelled from the spec: `NetIdMap` (networking/mod.rs is not among the given
sources) is a bidirectional map between local entity handles and network ids;
modelled as an association list of (entity id, net id) pairs. -/
abbrev NetIdMap := List (Nat × Nat)

/-- `NetIdMap::get_net_id(local_handle)`: pure lookup. -/
def get_net_id (m : NetIdMap) (ent : Nat) : Option Nat :=
  (m.find? (fun e => e.1 == ent)).map (fun e => e.2)

/-- `NetIdMap::get_entity(network_id)`: pure lookup. -/
def get_entity (m : NetIdMap) (nid : Nat) : Option Nat :=
  (m.find? (fun e => e.2 == nid)).map (fun e => e.1)

/-- Modelled from the spec: `NetIdMap::insert` registers a new mapping and is a
no-op when either side is already mapped. -/
def netIdInsert (m : NetIdMap) (ent nid : Nat) : NetIdMap :=
  if (get_net_id m ent).isSome || (get_entity m nid).isSome then m
  else (ent, nid) :: m

/-- bevy_tweening `EaseMethod`; only the constructors this layer distinguishes. -/
inductive EaseMethod where
  | Linear
  | Discrete (limit : ℚ)
deriving DecidableEq, Repr

/-- bevy_tweening `TweeningType`. -/
inductive TweeningType where
  | Once
  | Loop
  | PingPong
deriving DecidableEq, Repr

/-- A bevy_tweening `Tween` over a `TransformPositionLens { start, end }`;
`durationSecs` is the wall-clock duration in seconds (exact rational, since the
source computes it as `FIXED_TIMESTEP * 2.0`, exact in binary floating point). -/
structure Tween where
  ease : EaseMethod
  tweening : TweeningType
  durationSecs : ℚ
  lensStart : Vec3
  lensEnd : Vec3
deriving DecidableEq, Repr

/-- A bevy entity as seen by the replication systems: optional components.
`item` is `some script` when the entity has the `Item` component; `children`
distinguishes a missing `Children` component (`none`) from an empty one;
`transform` holds the translation (this layer never touches rotation or
scale); `animator` holds the current tweenable of `Animator<Transform>`. -/
structure GameEntity where
  id : Nat
  playerIdx : Option Nat
  transform : Option Vec3
  item : Option Nat
  children : Option (List Nat)
  animator : Option Tween
  sprite : Option Sprite
deriving DecidableEq, Repr

/-- The entity world, in iteration order of bevy queries. -/
abbrev World := List GameEntity

/-- Membership test for the `handle_player_state` query
`(Entity, &PlayerIdx, &Transform, &mut Animator<Transform>, &mut AnimationBankSprite)`. -/
def psQuery (e : GameEntity) : Bool :=
  e.playerIdx.isSome && e.transform.isSome && e.animator.isSome && e.sprite.isSome

/-- The entity matches the `handle_player_state` query with player index `p`. -/
def psMatch (p : Nat) (e : GameEntity) : Bool :=
  psQuery e && e.playerIdx == some p

/-- The tween installed by `handle_player_state`:
`Tween::new(EaseMethod::Linear, TweeningType::Once,
Duration::from_secs_f64(FIXED_TIMESTEP * 2.0),
TransformPositionLens { start: current, end: target })`.
`ft` is the `FIXED_TIMESTEP` constant (declared in the crate root, not among
the given sources), kept as a parameter. -/
def mkTween (ft : ℚ) (current target : Vec3) : Tween :=
  { ease := .Linear, tweening := .Once, durationSecs := ft * 2,
    lensStart := current, lensEnd := target }

/-- The mutation `handle_player_state` applies to the matched entity:
`animator.set_tweenable(...)` replaces any in-flight tween, and the sprite is
assigned immediately; the transform is not touched. -/
def snapUpd (ft : ℚ) (st : PlayerState) (e : GameEntity) : GameEntity :=
  { e with animator := some (mkTween ft (e.transform.getD ⟨0, 0, 0⟩) st.pos),
           sprite := some st.sprite }

/-- Body of the accepted-snapshot loop of `handle_player_state`: find the first
entity matching the query with the message's player index, replace its
animator tweenable and assign its sprite, then break. -/
def applySnapshot (ft : ℚ) (p : Nat) (st : PlayerState) : World → World
  | [] => []
  | e :: rest =>
    if psMatch p e then snapUpd ft st e :: rest
    else e :: applySnapshot ft p st rest

/-- One iteration of the `handle_player_state` receive loop
(src/networking/client/game.rs lines 182-199). -/
def handlePlayerStateMsg (ft : ℚ) (s : ClientTicks × World)
    (msg : PlayerStateFromServer) : ClientTicks × World :=
  let r := is_latest s.1 msg.player_idx msg.state.tick
  if r.1 then (r.2, applySnapshot ft msg.player_idx msg.state s.2)
  else (r.2, s.2)

/-- `handle_player_state`: drain all buffered `PlayerStateFromServer` messages
in arrival order. -/
def handle_player_state (ft : ℚ) (s : ClientTicks × World)
    (msgs : List PlayerStateFromServer) : ClientTicks × World :=
  msgs.foldl (handlePlayerStateMsg ft) s

/-- First entity of the `(Entity, &PlayerIdx, ..)` queries whose player index
component equals `p` (both game-event handlers and the server look players up
this way). -/
def findPlayer (w : World) (p : Nat) : Option GameEntity :=
  w.find? (fun e => e.playerIdx == some p)

/-- Membership test for the `Query<&mut Transform, With<Item>>` lookup of the
`DropItem` branch: the referenced entity must carry `Item` and `Transform`. -/
def isItemQuery (w : World) (cid : Nat) : Bool :=
  match w.find? (fun e => e.id == cid) with
  | some e => e.item.isSome && e.transform.isSome
  | none => false

/-- A fresh entity id for `commands.spawn()`. -/
def freshId (w : World) : Nat :=
  (w.map (fun e => e.id)).foldr max 0 + 1

/-- `SpawnPlayer(pos)`: spawn a new entity with `PlayerIdx` and `Transform`. -/
def spawnPlayerEntity (w : World) (p : Nat) (pos : Vec3) : World :=
  w ++ [{ id := freshId w, playerIdx := some p, transform := some pos,
          item := none, children := none, animator := none, sprite := none }]

/-- Children component of the entity with id `i`, empty when absent. -/
def childIdsOf (w : World) (i : Nat) : List Nat :=
  match w.find? (fun e => e.id == i) with
  | some e => e.children.getD []
  | none => []

/-- Breadth-first id collection for `despawn_recursive`, fuel-bounded; at fuel
zero the remaining frontier is still included. -/
def despawnFrontier (w : World) : Nat → List Nat → List Nat
  | _, [] => []
  | 0, frontier => frontier
  | fuel + 1, i :: rest => i :: despawnFrontier w fuel (rest ++ childIdsOf w i)

/-- Ids removed by `despawn_recursive(root)`: the root and all its attached
descendants. -/
def despawnIds (w : World) (root : Nat) : List Nat :=
  despawnFrontier w w.length [root]

/-- bevy `despawn_recursive`: remove the entity and its descendants. -/
def despawn_recursive (w : World) (root : Nat) : World :=
  w.filter (fun e => !(despawnIds w root).contains e.id)

/-- The `KillPlayer` branch shared by client and server handlers: despawn the
first entity whose player index matches, if any. -/
def killPlayer (w : World) (p : Nat) : World :=
  match findPlayer w p with
  | some e => despawn_recursive w e.id
  | none => w

/-- Per-entity effect of bevy `push_children(parent, [child])`: the parent
gains `child` at the end of its `Children` (created if absent); every other
entity loses `child` from its `Children` (the child is detached from any
previous parent). -/
def reparentUpd (parent child : Nat) (e : GameEntity) : GameEntity :=
  if e.id = parent then
    { e with
      children := some ((e.children.getD []).filter (fun c => c ≠ child) ++ [child]) }
  else
    { e with children := e.children.map (fun cs => cs.filter (fun c => c ≠ child)) }

/-- bevy `push_children(parent, [child])` over the whole world. -/
def reparentUnder (w : World) (parent child : Nat) : World :=
  w.map (reparentUpd parent child)

/-- `GrabItem(net_id)` branch of `handle_game_events`: resolve the net id, then
the target player, then reparent the item under the player; warn-and-no-op on
either failed lookup. -/
def grabItem (w : World) (m : NetIdMap) (p : Nat) (netId : Nat) : World :=
  match get_entity m netId with
  | none => w
  | some itemEnt =>
    match findPlayer w p with
    | none => w
    | some pl => reparentUnder w pl.id itemEnt

/-- Per-entity effect of the `DropItem` branch: a child in `cs` that passes
the item query gets its translation set to `pos`; the player (id `pid`) loses
exactly its item children; everything else is untouched. -/
def dropUpd (w : World) (cs : List Nat) (pid : Nat) (pos : Vec3)
    (e : GameEntity) : GameEntity :=
  if e.id ∈ cs ∧ isItemQuery w e.id then { e with transform := some pos }
  else if e.id = pid then
    { e with children := some (cs.filter (fun c => !isItemQuery w c)) }
  else e

/-- `DropItem(pos)` branch of `handle_game_events`: for the first matching
player, set the translation of every `Item` child to `pos` and remove those
children; warn-and-no-op when the player or its `Children` component is
missing. -/
def dropItem (w : World) (p : Nat) (pos : Vec3) : World :=
  match findPlayer w p with
  | none => w
  | some pl =>
    match pl.children with
    | none => w
    | some cs => w.map (dropUpd w cs pl.id pos)

/-- Dispatch of one received `PlayerEventFromServer`
(src/networking/client/game.rs lines 100-152). -/
def applyPlayerEvent (m : NetIdMap) (w : World) (ev : PlayerEventFromServer) : World :=
  match ev.kind with
  | .SpawnPlayer pos => spawnPlayerEntity w ev.player_idx pos
  | .KillPlayer => killPlayer w ev.player_idx
  | .GrabItem nid => grabItem w m ev.player_idx nid
  | .DropItem pos => dropItem w ev.player_idx pos

/-- `GameEventFromServer::SpawnItem`: spawn an item entity and register it in
the `NetIdMap`. -/
def spawnItemEntity (w : World) (m : NetIdMap) (ev : GameEventFromServer) :
    World × NetIdMap :=
  (w ++ [{ id := freshId w, playerIdx := none, transform := some ev.pos,
           item := some ev.script, children := none, animator := none,
           sprite := none }],
   netIdInsert m (freshId w) ev.net_id)

/-- Client-side replication state touched by the inbound systems. -/
structure ClientState where
  world : World
  netIds : NetIdMap
  ticks : ClientTicks
deriving DecidableEq, Repr

/-- `handle_game_events`: drain the `PlayerEventFromServer` channel, then the
`GameEventFromServer` channel, each in arrival order. -/
def handle_game_events (s : ClientState) (pevs : List PlayerEventFromServer)
    (gevs : List GameEventFromServer) : ClientState :=
  let s1 := pevs.foldl
    (fun st ev => { st with world := applyPlayerEvent st.netIds st.world ev }) s
  gevs.foldl
    (fun st ev =>
      let r := spawnItemEntity st.world st.netIds ev
      { st with world := r.1, netIds := r.2 }) s1

/-- A message applied by the inbound phase, for tracing application order. -/
inductive InboundMsg where
  | rel (ev : PlayerEventFromServer)
  | relGame (ev : GameEventFromServer)
  | unrel (msg : PlayerStateFromServer)
deriving DecidableEq, Repr

/-- The `while let Some(event) = client.recv_reliable::<PlayerEventFromServer>()`
loop, with a trace of the messages it applies, in order. -/
def drainPlayerEvents (s : ClientState) :
    List PlayerEventFromServer → ClientState × List InboundMsg
  | [] => (s, [])
  | ev :: rest =>
    let s1 : ClientState := { s with world := applyPlayerEvent s.netIds s.world ev }
    let r := drainPlayerEvents s1 rest
    (r.1, .rel ev :: r.2)

/-- The `while let Some(event) = client.recv_reliable::<GameEventFromServer>()`
loop, with a trace. -/
def drainGameEvents (s : ClientState) :
    List GameEventFromServer → ClientState × List InboundMsg
  | [] => (s, [])
  | ev :: rest =>
    let t := spawnItemEntity s.world s.netIds ev
    let r := drainGameEvents { s with world := t.1, netIds := t.2 } rest
    (r.1, .relGame ev :: r.2)

/-- The `while let Some(message) = client.recv_unreliable::<PlayerStateFromServer>()`
loop, with a trace. -/
def drainPlayerStates (ft : ℚ) (s : ClientState) :
    List PlayerStateFromServer → ClientState × List InboundMsg
  | [] => (s, [])
  | msg :: rest =>
    let t := handlePlayerStateMsg ft (s.ticks, s.world) msg
    let r := drainPlayerStates ft { s with ticks := t.1, world := t.2 } rest
    (r.1, .unrel msg :: r.2)

/-- The inbound phase of one fixed step: `handle_game_events` chained before
`handle_player_state` (both registered in the first fixed-update stage). -/
def inboundStep (ft : ℚ) (s : ClientState) (pevs : List PlayerEventFromServer)
    (gevs : List GameEventFromServer) (umsgs : List PlayerStateFromServer) :
    ClientState × List InboundMsg :=
  let a := drainPlayerEvents s pevs
  let b := drainGameEvents a.1 gevs
  let c := drainPlayerStates ft b.1 umsgs
  (c.1, a.2 ++ b.2 ++ c.2)

/-- Modelled from the spec: the fixed-update stage labels (the crate root that
declares `FixedUpdateStage` is not among the given sources); the first stage
runs before the last. -/
inductive FixedUpdateStage where
  | First
  | Last
deriving DecidableEq, Repr

/-- Execution order of the fixed-update stages. -/
def stageIndex : FixedUpdateStage → Nat
  | .First => 0
  | .Last => 1

/-- The four systems registered by `ClientGamePlugin::build`. -/
inductive ClientSystem where
  | handleGameEvents
  | handlePlayerState
  | sendGameEvents
  | sendPlayerState
deriving DecidableEq, Repr

/-- `ClientGamePlugin::build`: each entry is a stage together with the chain of
systems added to it, in chain order (src/networking/client/game.rs lines
28-45). -/
def clientGamePluginBuild : List (FixedUpdateStage × List ClientSystem) :=
  [(.Last, [.sendGameEvents, .sendPlayerState]),
   (.First, [.handleGameEvents, .handlePlayerState])]

/-- `MessageTarget` of the server transport. -/
inductive MessageTarget where
  | All
  | AllExcept (idx : Nat)
  | Only (idx : Nat)
deriving DecidableEq, Repr

/-- A message received by the server, tagged with the sender's client index. -/
structure Incoming (α : Type) where
  client_idx : Nat
  message : α
deriving DecidableEq, Repr

/-- An outbound server message with its target selection. -/
inductive ServerOut where
  | reliable (msg : PlayerEventFromServer) (target : MessageTarget)
  | unreliable (msg : PlayerStateFromServer) (target : MessageTarget)
deriving DecidableEq, Repr

/-- One iteration of the server's reliable receive loop
(src/networking/server/game.rs lines 28-45): despawn on `KillPlayer`, then
relay to everyone except the origin. -/
def serverHandleReliable (w : World) (inc : Incoming PlayerEvent) :
    World × ServerOut :=
  let w1 := match inc.message with
    | .KillPlayer => killPlayer w inc.client_idx
    | _ => w
  (w1, .reliable { player_idx := inc.client_idx, kind := inc.message }
        (.AllExcept inc.client_idx))

/-- One iteration of the server's unreliable receive loop: pure relay. -/
def serverHandleUnreliable (inc : Incoming PlayerState) : ServerOut :=
  .unreliable { player_idx := inc.client_idx, state := inc.message }
    (.AllExcept inc.client_idx)

/-- The server's reliable drain loop. -/
def serverDrainReliable (w : World) :
    List (Incoming PlayerEvent) → World × List ServerOut
  | [] => (w, [])
  | inc :: rest =>
    let t := serverHandleReliable w inc
    let r := serverDrainReliable t.1 rest
    (r.1, t.2 :: r.2)

/-- The server's unreliable drain loop. -/
def serverDrainUnreliable : List (Incoming PlayerState) → List ServerOut
  | [] => []
  | inc :: rest => serverHandleUnreliable inc :: serverDrainUnreliable rest

/-- `handle_client_messages`: drain the reliable lane, then the unreliable
lane. -/
def handle_client_messages (w : World) (rel : List (Incoming PlayerEvent))
    (unrel : List (Incoming PlayerState)) : World × List ServerOut :=
  let a := serverDrainReliable w rel
  (a.1, a.2 ++ serverDrainUnreliable unrel)

/-- `ItemGrabEvent` as read by `send_game_events`: the grabbing player entity
and the grabbed item entity. -/
structure ItemGrabEvent where
  player : Nat
  item : Nat
deriving DecidableEq, Repr

/-- `ItemDropEvent` as read by `send_game_events`: the dropping player entity. -/
structure ItemDropEvent where
  player : Nat
deriving DecidableEq, Repr

/-- `players.get(entity)` for the `Query<(&PlayerIdx, &Transform)>` of
`send_game_events`. -/
def getPlayerById (w : World) (ent : Nat) : Option (Nat × Vec3) :=
  match w.find? (fun e => e.id == ent) with
  | some e =>
    match e.playerIdx, e.transform with
    | some p, some tr => some (p, tr)
    | _, _ => none
  | none => none

/-- Processing of one local `ItemGrabEvent` by `send_game_events`
(src/networking/client/game.rs lines 55-65). `.error` models the
`expect("Item in network game without NetId")` panic; `.ok none` models the
no-send paths. -/
def processGrabEvent (w : World) (info : ClientMatchInfo) (m : NetIdMap)
    (ev : ItemGrabEvent) : Except String (Option PlayerEvent) :=
  match getPlayerById w ev.player with
  | none => .ok none
  | some (p, _) =>
    if info.player_idx = p then
      match get_net_id m ev.item with
      | some nid => .ok (some (.GrabItem nid))
      | none => .error "Item in network game without NetId"
    else .ok none

/-- Processing of one local `ItemDropEvent` by `send_game_events` (lines
67-74): sends the player's current translation. -/
def processDropEvent (w : World) (info : ClientMatchInfo) (ev : ItemDropEvent) :
    Option PlayerEvent :=
  match getPlayerById w ev.player with
  | none => none
  | some (p, tr) =>
    if info.player_idx = p then some (.DropItem tr) else none

/-- The grab-event loop of `send_game_events`; a panic aborts the system. -/
def sendGrabs (w : World) (info : ClientMatchInfo) (m : NetIdMap) :
    List ItemGrabEvent → Except String (List PlayerEvent)
  | [] => .ok []
  | ev :: rest =>
    match processGrabEvent w info m ev with
    | .error s => .error s
    | .ok none => sendGrabs w info m rest
    | .ok (some msg) => (sendGrabs w info m rest).map (fun l => msg :: l)

/-- `send_game_events`: the grab loop runs first, then the drop loop; the
result is the list of reliable messages sent, or the panic message. -/
def send_game_events (w : World) (info : ClientMatchInfo) (m : NetIdMap)
    (grabs : List ItemGrabEvent) (drops : List ItemDropEvent) :
    Except String (List PlayerEvent) :=
  (sendGrabs w info m grabs).map
    (fun l => l ++ drops.filterMap (processDropEvent w info))

/-- A concrete remote player entity (index 1) used in scenario statements. -/
def scnPlayer : GameEntity :=
  { id := 1, playerIdx := some 1, transform := some ⟨0, 0, 0⟩, item := none,
    children := none, animator := some (mkTween 1 ⟨0, 0, 0⟩ ⟨0, 0, 0⟩),
    sprite := some 0 }

/-- A concrete unreliable snapshot for player 1. -/
def scnMsg (t : Tick) (pos : Vec3) (spr : Sprite) : PlayerStateFromServer :=
  ⟨1, ⟨t, pos, spr⟩⟩

/-- A concrete item entity held by the scenario player below. -/
def scnItem : GameEntity :=
  { id := 20, playerIdx := none, transform := some ⟨0, 0, 0⟩, item := some 99,
    children := none, animator := none, sprite := none }

/-- A concrete non-item child of the scenario player below. -/
def scnChild : GameEntity :=
  { id := 30, playerIdx := none, transform := some ⟨0, 0, 0⟩, item := none,
    children := none, animator := none, sprite := none }

/-- A concrete player (index 0) holding the item entity and the non-item
child. -/
def scnHolder : GameEntity :=
  { id := 10, playerIdx := some 0, transform := some ⟨0, 0, 0⟩, item := none,
    children := some [20, 30], animator := none, sprite := none }

/-- The concrete world for the grab/drop scenarios. -/
def scnWorld : World := [scnHolder, scnItem, scnChild]

/-! ## Helper lemmas -/

theorem tickOf_setTick (ct : ClientTicks) (p : Nat) (t : Tick) :
    tickOf (setTick ct p t) p = some t := by
  induction ct with
  | nil => simp [setTick, tickOf]
  | cons e rest ih =>
    by_cases h : e.1 = p
    · simp [setTick, tickOf, h]
    · have h2 : (e.1 == p) = false := by simpa using h
      simp only [setTick, h, if_false]
      simpa only [tickOf, List.find?_cons, h2] using ih

theorem is_latest_eq (ct : ClientTicks) (p : Nat) (t : Tick) :
    is_latest ct p t =
      (tickFresh ct p t, if tickFresh ct p t then setTick ct p t else ct) := by
  unfold is_latest tickFresh
  cases h : tickOf ct p with
  | none => simp
  | some t0 => by_cases h2 : t0 < t <;> simp [h2]

theorem handlePlayerStateMsg_eq (ft : ℚ) (ct : ClientTicks) (w : World)
    (msg : PlayerStateFromServer) :
    handlePlayerStateMsg ft (ct, w) msg =
      if tickFresh ct msg.player_idx msg.state.tick then
        (setTick ct msg.player_idx msg.state.tick,
         applySnapshot ft msg.player_idx msg.state w)
      else (ct, w) := by
  unfold handlePlayerStateMsg
  rw [is_latest_eq]
  by_cases h : tickFresh ct msg.player_idx msg.state.tick <;> simp [h]

theorem applySnapshot_of_no_match (ft : ℚ) (p : Nat) (st : PlayerState)
    (w : World) (h : ∀ x ∈ w, psMatch p x = false) :
    applySnapshot ft p st w = w := by
  induction w with
  | nil => rfl
  | cons e rest ih =>
    have he := h e (List.mem_cons_self e rest)
    simp [applySnapshot, he, ih fun x hx => h x (List.mem_cons_of_mem e hx)]

theorem applySnapshot_append (ft : ℚ) (p : Nat) (st : PlayerState)
    (pre post : List GameEntity) (e : GameEntity)
    (hpre : ∀ x ∈ pre, psMatch p x = false) (he : psMatch p e = true) :
    applySnapshot ft p st (pre ++ e :: post) = pre ++ snapUpd ft st e :: post := by
  induction pre with
  | nil => simp [applySnapshot, he]
  | cons a rest ih =>
    have ha := hpre a (List.mem_cons_self a rest)
    simp [applySnapshot, ha,
      ih fun x hx => hpre x (List.mem_cons_of_mem a hx)]

theorem applySnapshot_map_id_transform (ft : ℚ) (p : Nat) (st : PlayerState)
    (w : World) :
    (applySnapshot ft p st w).map (fun x => (x.id, x.transform)) =
      w.map (fun x => (x.id, x.transform)) := by
  induction w with
  | nil => rfl
  | cons e rest ih =>
    by_cases h : psMatch p e
    · simp [applySnapshot, h, snapUpd]
    · simp [applySnapshot, h, ih]

/-! ## C1 -/

/-- C1: a received unreliable snapshot for player index `p` with tick `t` is
applied (via `applySnapshot`, which installs the pose tween and replaces the
sprite) iff `t` is strictly greater than the stored high-water mark for `p`
(or no mark is stored); on acceptance `t` becomes the new mark, on rejection
ticks and world are unchanged. Concretely, snapshots for player 1 arriving
with ticks [5, 3, 7] in that order: 5 and 7 are applied (the final animator
target and sprite come from tick 7), 3 is rejected (it changes nothing). -/
theorem spec_c1 :
    (∀ (ft : ℚ) (ct : ClientTicks) (w : World) (msg : PlayerStateFromServer),
      handlePlayerStateMsg ft (ct, w) msg =
        if tickFresh ct msg.player_idx msg.state.tick then
          (setTick ct msg.player_idx msg.state.tick,
           applySnapshot ft msg.player_idx msg.state w)
        else (ct, w))
    ∧ (∀ (ct : ClientTicks) (p : Nat) (t : Tick),
        tickOf (setTick ct p t) p = some t)
    ∧ tickOf (handle_player_state 1 ([], [scnPlayer])
        [scnMsg 5 ⟨1, 2, 3⟩ 7, scnMsg 3 ⟨4, 5, 6⟩ 8, scnMsg 7 ⟨7, 8, 9⟩ 9]).1 1
        = some 7
    ∧ tickFresh (handle_player_state 1 ([], [scnPlayer])
        [scnMsg 5 ⟨1, 2, 3⟩ 7]).1 1 3 = false
    ∧ handlePlayerStateMsg 1
        (handle_player_state 1 ([], [scnPlayer]) [scnMsg 5 ⟨1, 2, 3⟩ 7])
        (scnMsg 3 ⟨4, 5, 6⟩ 8)
        = handle_player_state 1 ([], [scnPlayer]) [scnMsg 5 ⟨1, 2, 3⟩ 7]
    ∧ (handle_player_state 1 ([], [scnPlayer])
        [scnMsg 5 ⟨1, 2, 3⟩ 7]).2.map
          (fun e => (e.sprite, e.animator.map (fun tw => (tw.ease, tw.lensStart, tw.lensEnd))))
        = [(some 7, some (EaseMethod.Linear, ⟨0, 0, 0⟩, ⟨1, 2, 3⟩))]
    ∧ (handle_player_state 1 ([], [scnPlayer])
        [scnMsg 5 ⟨1, 2, 3⟩ 7, scnMsg 3 ⟨4, 5, 6⟩ 8, scnMsg 7 ⟨7, 8, 9⟩ 9]).2.map
          (fun e => (e.sprite, e.animator.map (fun tw => (tw.ease, tw.lensStart, tw.lensEnd))))
        = [(some 9, some (EaseMethod.Linear, ⟨0, 0, 0⟩, ⟨7, 8, 9⟩))] := by
  refine ⟨handlePlayerStateMsg_eq, tickOf_setTick, by rfl, by rfl, by rfl,
    by rfl, by rfl⟩

/-! ## C2 -/

theorem serverDrainReliable_snd (w : World) (rel : List (Incoming PlayerEvent)) :
    (serverDrainReliable w rel).2 =
      rel.map (fun inc => ServerOut.reliable
        { player_idx := inc.client_idx, kind := inc.message }
        (MessageTarget.AllExcept inc.client_idx)) := by
  induction rel generalizing w with
  | nil => rfl
  | cons inc rest ih => simp [serverDrainReliable, serverHandleReliable, ih]

theorem serverDrainUnreliable_eq (unrel : List (Incoming PlayerState)) :
    serverDrainUnreliable unrel =
      unrel.map (fun inc => ServerOut.unreliable
        { player_idx := inc.client_idx, state := inc.message }
        (MessageTarget.AllExcept inc.client_idx)) := by
  induction unrel with
  | nil => rfl
  | cons inc rest ih => simp [serverDrainUnreliable, serverHandleUnreliable, ih]

/-- C2: in one invocation, the server handler sends exactly one outbound
message per received message, targeted at `AllExcept(origin)`: each reliable
`PlayerEvent` becomes a `PlayerEventFromServer` with `player_idx` the origin
index and `kind` the event unchanged, and each unreliable `PlayerState`
becomes a `PlayerStateFromServer` with `player_idx` the origin index and
`state` unchanged — every unreliable message is forwarded, with no tick
filtering. -/
theorem spec_c2 (w : World) (rel : List (Incoming PlayerEvent))
    (unrel : List (Incoming PlayerState)) :
    (handle_client_messages w rel unrel).2 =
      rel.map (fun inc => ServerOut.reliable
        { player_idx := inc.client_idx, kind := inc.message }
        (MessageTarget.AllExcept inc.client_idx)) ++
      unrel.map (fun inc => ServerOut.unreliable
        { player_idx := inc.client_idx, state := inc.message }
        (MessageTarget.AllExcept inc.client_idx)) := by
  simp [handle_client_messages, serverDrainReliable_snd, serverDrainUnreliable_eq]

/-! ## C3 -/

theorem reparentUpd_id (parent child : Nat) (e : GameEntity) :
    (reparentUpd parent child e).id = e.id := by
  unfold reparentUpd
  by_cases h : e.id = parent <;> simp [h]

theorem reparentUpd_parent_mem (parent child : Nat) (y : GameEntity)
    (hid : y.id = parent) :
    child ∈ (reparentUpd parent child y).children.getD [] := by
  simp [reparentUpd, hid]

theorem reparentUpd_other_not_mem (parent child : Nat) (y : GameEntity)
    (hid : ¬y.id = parent) :
    child ∉ (reparentUpd parent child y).children.getD [] := by
  simp only [reparentUpd, hid, if_false]
  cases y.children with
  | none => simp
  | some cs => simp

theorem dropUpd_id (w : World) (cs : List Nat) (pid : Nat) (pos : Vec3)
    (e : GameEntity) : (dropUpd w cs pid pos e).id = e.id := by
  unfold dropUpd
  split
  · rfl
  · split <;> rfl

theorem dropUpd_item (w : World) (cs : List Nat) (pid : Nat) (pos : Vec3)
    (e : GameEntity) (h1 : e.id ∈ cs) (h2 : isItemQuery w e.id = true) :
    (dropUpd w cs pid pos e).transform = some pos := by
  simp [dropUpd, h1, h2]

theorem dropUpd_player (w : World) (cs : List Nat) (pid : Nat) (pos : Vec3)
    (e : GameEntity) (hid : e.id = pid) (hnotin : pid ∉ cs) :
    (dropUpd w cs pid pos e).children =
      some (cs.filter (fun c => !isItemQuery w c)) := by
  subst hid
  have hno : ¬(e.id ∈ cs ∧ isItemQuery w e.id) := fun h => hnotin h.1
  simp [dropUpd, hno]

theorem dropUpd_untouched (w : World) (cs : List Nat) (pid : Nat) (pos : Vec3)
    (e : GameEntity) (h1 : e.id ∉ cs) (h2 : e.id ≠ pid) :
    dropUpd w cs pid pos e = e := by
  have hno : ¬(e.id ∈ cs ∧ isItemQuery w e.id) := fun h => h1 h.1
  simp [dropUpd, hno, h2]

theorem dropUpd_nonitem (w : World) (cs : List Nat) (pid : Nat) (pos : Vec3)
    (e : GameEntity) (h1 : isItemQuery w e.id = false) (h2 : e.id ≠ pid) :
    dropUpd w cs pid pos e = e := by
  have hno : ¬(e.id ∈ cs ∧ isItemQuery w e.id) := by simp [h1]
  simp [dropUpd, hno, h2]

theorem dropItem_eq (w : World) (p : Nat) (pos : Vec3) (pl : GameEntity)
    (cs : List Nat) (hfind : findPlayer w p = some pl)
    (hcs : pl.children = some cs) :
    dropItem w p pos = w.map (dropUpd w cs pl.id pos) := by
  simp [dropItem, hfind, hcs]

/-- C3: a received `GrabItem` whose network id is unmapped, a `GrabItem` or
`DropItem` whose player index matches no live player, and a `DropItem` whose
target player has no `Children` component, each leave the world exactly
unchanged (warn-and-no-op); only when every lookup succeeds does `GrabItem`
reparent the resolved item under the player (it ends up in that player's
children and nobody else's) and does `DropItem` reposition its item children
to the event position and detach them. -/
theorem spec_c3 :
    (∀ (w : World) (m : NetIdMap) (p nid : Nat),
        get_entity m nid = none → grabItem w m p nid = w)
    ∧ (∀ (w : World) (m : NetIdMap) (p nid : Nat),
        findPlayer w p = none → grabItem w m p nid = w)
    ∧ (∀ (w : World) (p : Nat) (pos : Vec3),
        findPlayer w p = none → dropItem w p pos = w)
    ∧ (∀ (w : World) (p : Nat) (pos : Vec3) (pl : GameEntity),
        findPlayer w p = some pl → pl.children = none → dropItem w p pos = w)
    ∧ (∀ (w : World) (m : NetIdMap) (p nid itemEnt : Nat) (pl : GameEntity),
        get_entity m nid = some itemEnt → findPlayer w p = some pl →
          grabItem w m p nid = reparentUnder w pl.id itemEnt
          ∧ (∀ x ∈ grabItem w m p nid, x.id = pl.id →
              itemEnt ∈ x.children.getD [])
          ∧ (∀ x ∈ grabItem w m p nid, x.id ≠ pl.id →
              itemEnt ∉ x.children.getD []))
    ∧ (∀ (w : World) (p : Nat) (pos : Vec3) (pl : GameEntity) (cs : List Nat),
        findPlayer w p = some pl → pl.children = some cs → pl.id ∉ cs →
          (∀ x ∈ dropItem w p pos, x.id ∈ cs → isItemQuery w x.id = true →
            x.transform = some pos)
          ∧ (∀ x ∈ dropItem w p pos, x.id = pl.id → ∀ c ∈ cs,
              isItemQuery w c = true → c ∉ x.children.getD [])) := by
  refine ⟨?_, ?_, ?_, ?_, ?_, ?_⟩
  · intro w m p nid h
    simp [grabItem, h]
  · intro w m p nid h
    unfold grabItem
    cases get_entity m nid with
    | none => rfl
    | some itemEnt => simp [h]
  · intro w p pos h
    simp [dropItem, h]
  · intro w p pos pl hfind hcs
    simp [dropItem, hfind, hcs]
  · intro w m p nid itemEnt pl h1 h2
    have heq : grabItem w m p nid = reparentUnder w pl.id itemEnt := by
      simp [grabItem, h1, h2]
    refine ⟨heq, ?_, ?_⟩
    · intro x hx hid
      rw [heq] at hx
      obtain ⟨y, _, hxy⟩ := List.mem_map.mp hx
      subst hxy
      exact reparentUpd_parent_mem pl.id itemEnt y
        ((reparentUpd_id pl.id itemEnt y) ▸ hid)
    · intro x hx hid
      rw [heq] at hx
      obtain ⟨y, _, hxy⟩ := List.mem_map.mp hx
      subst hxy
      exact reparentUpd_other_not_mem pl.id itemEnt y
        ((reparentUpd_id pl.id itemEnt y) ▸ hid)
  · intro w p pos pl cs hfind hcs hself
    rw [dropItem_eq w p pos pl cs hfind hcs]
    constructor
    · intro x hx hid hitem
      obtain ⟨y, _, hxy⟩ := List.mem_map.mp hx
      subst hxy
      have hyid := dropUpd_id w cs pl.id pos y
      rw [hyid] at hid hitem
      exact dropUpd_item w cs pl.id pos y hid hitem
    · intro x hx hid c hc hcitem
      obtain ⟨y, _, hxy⟩ := List.mem_map.mp hx
      subst hxy
      have hyid := dropUpd_id w cs pl.id pos y
      rw [hyid] at hid
      rw [dropUpd_player w cs pl.id pos y hid hself]
      simp [List.mem_filter, hcitem]

/-- Witness for C3 at concrete inputs: a grab referencing an unmapped net id
is a pure no-op (scenario D), and a fully resolved grab reparents the item
under the player. -/
theorem spec_c3_witness :
    grabItem scnWorld [] 0 500 = scnWorld
    ∧ grabItem scnWorld [(20, 500)] 0 500 =
        reparentUnder scnWorld scnHolder.id 20 :=
  ⟨spec_c3.1 scnWorld [] 0 500 rfl,
   (spec_c3.2.2.2.2.1 scnWorld [(20, 500)] 0 500 20 scnHolder rfl rfl).1⟩

/-! ## C4 -/

/-- C4 counterexample: with a live local player (index 0, the client's own)
grabbing an item that has no `NetIdMap` entry, `get_net_id` returns `None` and
the outbound send path terminates with the panic
`expect("Item in network game without NetId")` instead of skipping: the claim
that this path never panics is false on the code. -/
theorem spec_c4_counterexample :
    get_net_id [] 20 = none
    ∧ processGrabEvent scnWorld ⟨0⟩ [] ⟨10, 20⟩ =
        Except.error "Item in network game without NetId"
    ∧ send_game_events scnWorld ⟨0⟩ [] [⟨10, 20⟩] [] =
        Except.error "Item in network game without NetId" :=
  ⟨rfl, rfl, rfl⟩

/-- C4 (amended): the outbound grab path degrades gracefully (skips the send)
when the player entity lookup fails or the grabbing player's index is not the
client's own; but when the event is for the client's own player and
`get_net_id` returns `None`, the path panics (`expect`) rather than skipping. -/
theorem spec_c4 :
    (∀ (w : World) (info : ClientMatchInfo) (m : NetIdMap) (ev : ItemGrabEvent),
        getPlayerById w ev.player = none →
        processGrabEvent w info m ev = Except.ok none)
    ∧ (∀ (w : World) (info : ClientMatchInfo) (m : NetIdMap)
        (ev : ItemGrabEvent) (p : Nat) (tr : Vec3),
        getPlayerById w ev.player = some (p, tr) → info.player_idx ≠ p →
        processGrabEvent w info m ev = Except.ok none)
    ∧ (∀ (w : World) (info : ClientMatchInfo) (m : NetIdMap)
        (ev : ItemGrabEvent) (p : Nat) (tr : Vec3),
        getPlayerById w ev.player = some (p, tr) → info.player_idx = p →
        get_net_id m ev.item = none →
        processGrabEvent w info m ev =
          Except.error "Item in network game without NetId") := by
  refine ⟨?_, ?_, ?_⟩
  · intro w info m ev h
    simp [processGrabEvent, h]
  · intro w info m ev p tr h hne
    simp [processGrabEvent, h, hne]
  · intro w info m ev p tr h heq hnid
    simp [processGrabEvent, h, heq, hnid]

/-- Witness for C4 at concrete inputs: both graceful-skip branches and the
panic branch, instantiated on the scenario world. -/
theorem spec_c4_witness :
    processGrabEvent scnWorld ⟨0⟩ [] ⟨999, 20⟩ = Except.ok none
    ∧ processGrabEvent scnWorld ⟨5⟩ [] ⟨10, 20⟩ = Except.ok none
    ∧ processGrabEvent scnWorld ⟨0⟩ [] ⟨10, 20⟩ =
        Except.error "Item in network game without NetId" :=
  ⟨spec_c4.1 scnWorld ⟨0⟩ [] ⟨999, 20⟩ rfl,
   spec_c4.2.1 scnWorld ⟨5⟩ [] ⟨10, 20⟩ 0 ⟨0, 0, 0⟩ rfl (by decide),
   spec_c4.2.2 scnWorld ⟨0⟩ [] ⟨10, 20⟩ 0 ⟨0, 0, 0⟩ rfl rfl rfl⟩

/-! ## C5 -/

/-- C5: for every accepted (fresh) snapshot whose player index matches a
queried entity `e` (first match in iteration order), the handler replaces the
entity's animator with a tween whose ease is linear, whose type is `Once`,
whose duration is exactly two fixed timesteps (`FIXED_TIMESTEP * 2` seconds),
whose lens runs from the entity's current translation `tr` to the snapshot
position, and assigns the sprite immediately; no entity's transform is
modified (no teleport). -/
theorem spec_c5 (ft : ℚ) (ct : ClientTicks) (w : World)
    (msg : PlayerStateFromServer) (pre post : List GameEntity) (e : GameEntity)
    (tr : Vec3)
    (hw : w = pre ++ e :: post)
    (hpre : ∀ x ∈ pre, psMatch msg.player_idx x = false)
    (he : psMatch msg.player_idx e = true)
    (htr : e.transform = some tr)
    (hfresh : tickFresh ct msg.player_idx msg.state.tick = true) :
    (handlePlayerStateMsg ft (ct, w) msg).2 =
      pre ++ { e with animator := some (mkTween ft tr msg.state.pos),
                      sprite := some msg.state.sprite } :: post
    ∧ (mkTween ft tr msg.state.pos).ease = EaseMethod.Linear
    ∧ (mkTween ft tr msg.state.pos).tweening = TweeningType.Once
    ∧ (mkTween ft tr msg.state.pos).durationSecs = ft * 2
    ∧ (mkTween ft tr msg.state.pos).lensStart = tr
    ∧ (mkTween ft tr msg.state.pos).lensEnd = msg.state.pos
    ∧ (handlePlayerStateMsg ft (ct, w) msg).2.map (fun x => (x.id, x.transform))
        = w.map (fun x => (x.id, x.transform)) := by
  have hworld : (handlePlayerStateMsg ft (ct, w) msg).2 =
      applySnapshot ft msg.player_idx msg.state w := by
    rw [handlePlayerStateMsg_eq, hfresh]
    rfl
  refine ⟨?_, rfl, rfl, rfl, rfl, rfl, ?_⟩
  · rw [hworld, hw, applySnapshot_append ft msg.player_idx msg.state pre post e
      hpre he]
    simp [snapUpd, htr]
  · rw [hworld, applySnapshot_map_id_transform]

/-- Witness for C5: the concrete fresh snapshot with tick 5 installs the
linear tween toward its position on the scenario player. -/
theorem spec_c5_witness :
    (handlePlayerStateMsg 1 ([], [scnPlayer]) (scnMsg 5 ⟨1, 2, 3⟩ 7)).2 =
      [{ scnPlayer with animator := some (mkTween 1 ⟨0, 0, 0⟩ ⟨1, 2, 3⟩),
                        sprite := some 7 }] :=
  (spec_c5 1 [] [scnPlayer] (scnMsg 5 ⟨1, 2, 3⟩ 7) [] [] scnPlayer ⟨0, 0, 0⟩
    rfl (by intro x hx; cases hx) (by decide) rfl rfl).1

/-! ## C6 -/

theorem despawnFrontier_succ_cons (w : World) (n i : Nat) (rest : List Nat) :
    despawnFrontier w (n + 1) (i :: rest) =
      i :: despawnFrontier w n (rest ++ childIdsOf w i) := rfl

theorem subset_despawnFrontier (w : World) :
    ∀ (fuel : Nat) (f : List Nat), f ⊆ despawnFrontier w fuel f := by
  intro fuel
  induction fuel with
  | zero =>
    intro f
    cases f with
    | nil => exact fun a ha => absurd ha (List.not_mem_nil a)
    | cons i rest => exact fun a ha => ha
  | succ n ih =>
    intro f
    cases f with
    | nil => exact fun a ha => absurd ha (List.not_mem_nil a)
    | cons i rest =>
      intro a ha
      rw [despawnFrontier_succ_cons]
      rcases List.mem_cons.mp ha with h | h
      · exact h ▸ List.mem_cons_self a _
      · exact List.mem_cons_of_mem i
          (ih (rest ++ childIdsOf w i) (List.mem_append_left _ h))

theorem mem_root_despawnIds (w : World) (root : Nat) :
    root ∈ despawnIds w root :=
  subset_despawnFrontier w w.length [root] (List.mem_singleton.mpr rfl)

theorem children_subset_despawnIds (w : World) (root : Nat) (hw : w ≠ []) :
    ∀ c ∈ childIdsOf w root, c ∈ despawnIds w root := by
  intro c hc
  unfold despawnIds
  cases hlen : w.length with
  | zero => exact absurd (List.length_eq_zero.mp hlen) hw
  | succ n =>
    rw [despawnFrontier_succ_cons]
    refine List.mem_cons_of_mem root (subset_despawnFrontier w n _ ?_)
    simpa using hc

/-- C6: on a received `KillPlayer` from client index `i`, the server despawns
(recursively, so the entity and all its attached children are in the removed
id set) exactly the first entity whose player index is `i` when one exists —
entities outside the removed id set survive unchanged — and does nothing when
none matches; every other event kind leaves the server world exactly
unchanged; in all cases the single outbound message is the relay. -/
theorem spec_c6 :
    (∀ (w : World) (inc : Incoming PlayerEvent),
        inc.message ≠ PlayerEvent.KillPlayer →
        (serverHandleReliable w inc).1 = w)
    ∧ (∀ (w : World) (inc : Incoming PlayerEvent),
        inc.message = PlayerEvent.KillPlayer →
        findPlayer w inc.client_idx = none → (serverHandleReliable w inc).1 = w)
    ∧ (∀ (w : World) (inc : Incoming PlayerEvent) (e : GameEntity),
        inc.message = PlayerEvent.KillPlayer →
        findPlayer w inc.client_idx = some e →
          (serverHandleReliable w inc).1 =
            w.filter (fun x => !(despawnIds w e.id).contains x.id)
          ∧ e.id ∈ despawnIds w e.id
          ∧ (∀ c ∈ childIdsOf w e.id, c ∈ despawnIds w e.id)
          ∧ (∀ x ∈ w, x.id ∉ despawnIds w e.id →
              x ∈ (serverHandleReliable w inc).1))
    ∧ (∀ (w : World) (inc : Incoming PlayerEvent),
        (serverHandleReliable w inc).2 =
          ServerOut.reliable
            { player_idx := inc.client_idx, kind := inc.message }
            (MessageTarget.AllExcept inc.client_idx)) := by
  refine ⟨?_, ?_, ?_, fun w inc => rfl⟩
  · intro w inc h
    unfold serverHandleReliable
    cases hm : inc.message with
    | KillPlayer => exact absurd hm h
    | SpawnPlayer pos => rfl
    | GrabItem nid => rfl
    | DropItem pos => rfl
  · intro w inc hm hfind
    unfold serverHandleReliable
    rw [hm]
    simp [killPlayer, hfind]
  · intro w inc e hm hfind
    have hmem : e ∈ w :=
      List.mem_of_find?_eq_some (by simpa [findPlayer] using hfind)
    have hw : w ≠ [] := by
      intro h
      subst h
      cases hmem
    have heq : (serverHandleReliable w inc).1 =
        w.filter (fun x => !(despawnIds w e.id).contains x.id) := by
      unfold serverHandleReliable
      rw [hm]
      simp [killPlayer, hfind, despawn_recursive]
    refine ⟨heq, mem_root_despawnIds w e.id,
      children_subset_despawnIds w e.id hw, ?_⟩
    intro x hx hnot
    rw [heq]
    exact List.mem_filter.mpr ⟨hx, by simpa using hnot⟩

/-- Witness for C6: killing client 0 on the scenario world removes the holder
and both its children, and a `SpawnPlayer` relay mutates nothing. -/
theorem spec_c6_witness :
    (serverHandleReliable scnWorld ⟨0, PlayerEvent.KillPlayer⟩).1 =
      scnWorld.filter
        (fun x => !(despawnIds scnWorld scnHolder.id).contains x.id)
    ∧ scnHolder.id ∈ despawnIds scnWorld scnHolder.id
    ∧ (serverHandleReliable scnWorld
        ⟨0, PlayerEvent.SpawnPlayer ⟨1, 1, 1⟩⟩).1 = scnWorld :=
  ⟨(spec_c6.2.2.1 scnWorld ⟨0, PlayerEvent.KillPlayer⟩ scnHolder rfl rfl).1,
   (spec_c6.2.2.1 scnWorld ⟨0, PlayerEvent.KillPlayer⟩ scnHolder rfl rfl).2.1,
   spec_c6.1 scnWorld ⟨0, PlayerEvent.SpawnPlayer ⟨1, 1, 1⟩⟩ (by decide)⟩

/-! ## C7 -/

/-- C7 counterexample: the claimed biconditional "a reliable event is emitted
iff the player entity's index equals client_info.player_idx" is false on the
code: here the grab intent's player resolves to index 0, which equals the
client's own index, and yet no event is emitted — the grab path terminates
with the missing-net-id panic, so the outbound phase produces no message list
at all. -/
theorem spec_c7_counterexample :
    getPlayerById scnWorld 10 = some (0, ⟨0, 0, 0⟩)
    ∧ (ClientMatchInfo.mk 0).player_idx = 0
    ∧ processGrabEvent scnWorld ⟨0⟩ [] ⟨10, 20⟩ =
        Except.error "Item in network game without NetId"
    ∧ send_game_events scnWorld ⟨0⟩ [] [⟨10, 20⟩] [] =
        Except.error "Item in network game without NetId" :=
  ⟨rfl, rfl, rfl, rfl⟩

/-- C7 (amended): the client never emits a grab/drop event for a player index
other than its own — a resolved intent for another player's index produces no
outbound message, and every emitted message stems from a resolved player equal
to the client's own index. A resolved drop intent emits a message exactly when
the resolved index equals the client's own, carrying that player's
translation; a resolved own-index grab intent emits exactly when the item's
net id resolves, and panics (emitting nothing) when `get_net_id` returns
`None`. -/
theorem spec_c7 :
    (∀ (w : World) (info : ClientMatchInfo) (m : NetIdMap) (ev : ItemGrabEvent)
        (p : Nat) (tr : Vec3),
        getPlayerById w ev.player = some (p, tr) → info.player_idx ≠ p →
        processGrabEvent w info m ev = Except.ok none)
    ∧ (∀ (w : World) (info : ClientMatchInfo) (m : NetIdMap)
        (ev : ItemGrabEvent) (r : PlayerEvent),
        processGrabEvent w info m ev = Except.ok (some r) →
        ∃ p tr nid, getPlayerById w ev.player = some (p, tr)
          ∧ p = info.player_idx ∧ get_net_id m ev.item = some nid
          ∧ r = PlayerEvent.GrabItem nid)
    ∧ (∀ (w : World) (info : ClientMatchInfo) (m : NetIdMap)
        (ev : ItemGrabEvent) (p : Nat) (tr : Vec3) (nid : Nat),
        getPlayerById w ev.player = some (p, tr) → info.player_idx = p →
        get_net_id m ev.item = some nid →
        processGrabEvent w info m ev =
          Except.ok (some (PlayerEvent.GrabItem nid)))
    ∧ (∀ (w : World) (info : ClientMatchInfo) (ev : ItemDropEvent)
        (p : Nat) (tr : Vec3),
        getPlayerById w ev.player = some (p, tr) →
        processDropEvent w info ev =
          if info.player_idx = p then some (PlayerEvent.DropItem tr) else none)
    ∧ (∀ (w : World) (info : ClientMatchInfo) (ev : ItemDropEvent)
        (r : PlayerEvent), processDropEvent w info ev = some r →
        ∃ p tr, getPlayerById w ev.player = some (p, tr)
          ∧ p = info.player_idx ∧ r = PlayerEvent.DropItem tr)
    ∧ (∀ (w : World) (info : ClientMatchInfo) (m : NetIdMap)
        (ev : ItemGrabEvent) (p : Nat) (tr : Vec3),
        getPlayerById w ev.player = some (p, tr) → info.player_idx = p →
        get_net_id m ev.item = none →
        processGrabEvent w info m ev =
          Except.error "Item in network game without NetId") := by
  refine ⟨?_, ?_, ?_, ?_, ?_, ?_⟩
  · intro w info m ev p tr h hne
    simp [processGrabEvent, h, hne]
  · intro w info m ev r h
    unfold processGrabEvent at h
    cases hp : getPlayerById w ev.player with
    | none => rw [hp] at h; cases h
    | some ptr =>
      obtain ⟨p, tr⟩ := ptr
      rw [hp] at h
      dsimp only at h
      by_cases heq : info.player_idx = p
      · rw [if_pos heq] at h
        cases hn : get_net_id m ev.item with
        | none => rw [hn] at h; cases h
        | some nid =>
          rw [hn] at h
          refine ⟨p, tr, nid, rfl, heq.symm, rfl, ?_⟩
          cases h
          rfl
      · rw [if_neg heq] at h
        cases h
  · intro w info m ev p tr nid h heq hnid
    simp [processGrabEvent, h, heq, hnid]
  · intro w info ev p tr h
    simp [processDropEvent, h]
  · intro w info ev r h
    unfold processDropEvent at h
    cases hp : getPlayerById w ev.player with
    | none => rw [hp] at h; cases h
    | some ptr =>
      obtain ⟨p, tr⟩ := ptr
      rw [hp] at h
      dsimp only at h
      by_cases heq : info.player_idx = p
      · rw [if_pos heq] at h
        refine ⟨p, tr, rfl, heq.symm, ?_⟩
        cases h
        rfl
      · rw [if_neg heq] at h
        cases h
  · intro w info m ev p tr h heq hnid
    simp [processGrabEvent, h, heq, hnid]

/-- Witness for C7: on the scenario world, a grab intent attributed to another
index emits nothing, while the client's own grab and drop intents emit the
expected messages. -/
theorem spec_c7_witness :
    processGrabEvent scnWorld ⟨3⟩ [(20, 500)] ⟨10, 20⟩ = Except.ok none
    ∧ processGrabEvent scnWorld ⟨0⟩ [(20, 500)] ⟨10, 20⟩ =
        Except.ok (some (PlayerEvent.GrabItem 500))
    ∧ processDropEvent scnWorld ⟨0⟩ ⟨10⟩ =
        (if (0 : Nat) = 0 then some (PlayerEvent.DropItem ⟨0, 0, 0⟩) else none) :=
  ⟨spec_c7.1 scnWorld ⟨3⟩ [(20, 500)] ⟨10, 20⟩ 0 ⟨0, 0, 0⟩ rfl (by decide),
   spec_c7.2.2.1 scnWorld ⟨0⟩ [(20, 500)] ⟨10, 20⟩ 0 ⟨0, 0, 0⟩ 500 rfl rfl rfl,
   spec_c7.2.2.2.1 scnWorld ⟨0⟩ ⟨10⟩ 0 ⟨0, 0, 0⟩ rfl⟩

/-! ## C8 -/

theorem drainPlayerEvents_fst (s : ClientState)
    (l : List PlayerEventFromServer) :
    (drainPlayerEvents s l).1 = l.foldl
      (fun st ev => { st with world := applyPlayerEvent st.netIds st.world ev })
      s := by
  induction l generalizing s with
  | nil => rfl
  | cons ev rest ih => simp [drainPlayerEvents, ih]

theorem drainPlayerEvents_snd (s : ClientState)
    (l : List PlayerEventFromServer) :
    (drainPlayerEvents s l).2 = l.map InboundMsg.rel := by
  induction l generalizing s with
  | nil => rfl
  | cons ev rest ih => simp [drainPlayerEvents, ih]

theorem drainGameEvents_fst (s : ClientState) (l : List GameEventFromServer) :
    (drainGameEvents s l).1 = l.foldl
      (fun st ev =>
        let r := spawnItemEntity st.world st.netIds ev
        { st with world := r.1, netIds := r.2 }) s := by
  induction l generalizing s with
  | nil => rfl
  | cons ev rest ih => simp [drainGameEvents, ih]

theorem drainGameEvents_snd (s : ClientState) (l : List GameEventFromServer) :
    (drainGameEvents s l).2 = l.map InboundMsg.relGame := by
  induction l generalizing s with
  | nil => rfl
  | cons ev rest ih => simp [drainGameEvents, ih]

theorem drainPlayerStates_fst (ft : Rat) (s : ClientState)
    (l : List PlayerStateFromServer) :
    (drainPlayerStates ft s l).1 =
      { world := (handle_player_state ft (s.ticks, s.world) l).2,
        netIds := s.netIds,
        ticks := (handle_player_state ft (s.ticks, s.world) l).1 } := by
  induction l generalizing s with
  | nil => rfl
  | cons msg rest ih => simp [drainPlayerStates, handle_player_state, ih]

theorem drainPlayerStates_snd (ft : Rat) (s : ClientState)
    (l : List PlayerStateFromServer) :
    (drainPlayerStates ft s l).2 = l.map InboundMsg.unrel := by
  induction l generalizing s with
  | nil => rfl
  | cons msg rest ih => simp [drainPlayerStates, ih]

/-- C8: `ClientGamePlugin::build` registers the inbound chain
`handle_game_events` then `handle_player_state` in the first fixed-update
stage and the outbound chain `send_game_events` then `send_player_state` in
the last fixed-update stage, the first stage preceding the last; within a
step, the inbound phase applies all buffered reliable `PlayerEventFromServer`
messages, then all `GameEventFromServer` messages, each in arrival order, and
only then the unreliable `PlayerStateFromServer` messages (the application
trace is exactly the two reliable queues followed by the unreliable queue),
the resulting state being the unreliable drain run on the output of the
reliable drain. -/
theorem spec_c8 :
    (FixedUpdateStage.First, [ClientSystem.handleGameEvents,
      ClientSystem.handlePlayerState]) ∈ clientGamePluginBuild
    ∧ (FixedUpdateStage.Last, [ClientSystem.sendGameEvents,
      ClientSystem.sendPlayerState]) ∈ clientGamePluginBuild
    ∧ stageIndex FixedUpdateStage.First < stageIndex FixedUpdateStage.Last
    ∧ (∀ (ft : Rat) (s : ClientState) (pevs : List PlayerEventFromServer)
        (gevs : List GameEventFromServer) (umsgs : List PlayerStateFromServer),
        (inboundStep ft s pevs gevs umsgs).2 =
          pevs.map InboundMsg.rel ++ gevs.map InboundMsg.relGame
            ++ umsgs.map InboundMsg.unrel)
    ∧ (∀ (ft : Rat) (s : ClientState) (pevs : List PlayerEventFromServer)
        (gevs : List GameEventFromServer) (umsgs : List PlayerStateFromServer),
        (inboundStep ft s pevs gevs umsgs).1 =
          { world := (handle_player_state ft
              ((handle_game_events s pevs gevs).ticks,
               (handle_game_events s pevs gevs).world) umsgs).2,
            netIds := (handle_game_events s pevs gevs).netIds,
            ticks := (handle_player_state ft
              ((handle_game_events s pevs gevs).ticks,
               (handle_game_events s pevs gevs).world) umsgs).1 }) := by
  refine ⟨by decide, by decide, by decide, ?_, ?_⟩
  · intro ft s pevs gevs umsgs
    simp [inboundStep, drainPlayerEvents_snd, drainGameEvents_snd,
      drainPlayerStates_snd]
  · intro ft s pevs gevs umsgs
    simp only [inboundStep, drainPlayerEvents_fst, drainGameEvents_fst,
      drainPlayerStates_fst, handle_game_events]

/-! ## C9 -/

/-- C9: the freshness watermark advances on every accepted snapshot even when
no queried player entity with that index exists: the world is left unchanged,
yet the tick is recorded, and any later snapshot for the same index with a
lower-or-equal tick is rejected outright (state exactly unchanged). -/
theorem spec_c9 (ft : Rat) (ct : ClientTicks) (w : World)
    (msg : PlayerStateFromServer)
    (hnone : ∀ x ∈ w, psMatch msg.player_idx x = false)
    (hfresh : tickFresh ct msg.player_idx msg.state.tick = true) :
    (handlePlayerStateMsg ft (ct, w) msg).2 = w
    ∧ tickOf (handlePlayerStateMsg ft (ct, w) msg).1 msg.player_idx
        = some msg.state.tick
    ∧ (∀ msg2 : PlayerStateFromServer, msg2.player_idx = msg.player_idx →
        msg2.state.tick ≤ msg.state.tick →
        handlePlayerStateMsg ft (handlePlayerStateMsg ft (ct, w) msg) msg2 =
          handlePlayerStateMsg ft (ct, w) msg) := by
  have hmsg : handlePlayerStateMsg ft (ct, w) msg =
      (setTick ct msg.player_idx msg.state.tick, w) := by
    rw [handlePlayerStateMsg_eq, hfresh]
    simp [applySnapshot_of_no_match ft msg.player_idx msg.state w hnone]
  refine ⟨by rw [hmsg], ?_, ?_⟩
  · rw [hmsg]
    exact tickOf_setTick ct msg.player_idx msg.state.tick
  · intro msg2 hp ht
    rw [hmsg, handlePlayerStateMsg_eq]
    have hstale : tickFresh (setTick ct msg.player_idx msg.state.tick)
        msg2.player_idx msg2.state.tick = false := by
      rw [hp]
      unfold tickFresh
      rw [tickOf_setTick]
      exact decide_eq_false (Nat.not_lt.mpr ht)
    rw [hstale]
    simp

/-- Witness for C9: a fresh snapshot for player 1 on an empty world records
tick 5 while mutating nothing. -/
theorem spec_c9_witness :
    (handlePlayerStateMsg 1 ([], []) (scnMsg 5 ⟨1, 2, 3⟩ 7)).2 = []
    ∧ tickOf (handlePlayerStateMsg 1 ([], []) (scnMsg 5 ⟨1, 2, 3⟩ 7)).1 1
        = some 5 :=
  ⟨(spec_c9 1 [] [] (scnMsg 5 ⟨1, 2, 3⟩ 7)
      (fun x hx => absurd hx (List.not_mem_nil x)) rfl).1,
   (spec_c9 1 [] [] (scnMsg 5 ⟨1, 2, 3⟩ 7)
      (fun x hx => absurd hx (List.not_mem_nil x)) rfl).2.1⟩

/-! ## C10 -/

theorem dropUpd_item_eq (w : World) (cs : List Nat) (pid : Nat) (pos : Vec3)
    (e : GameEntity) (h1 : e.id ∈ cs) (h2 : isItemQuery w e.id = true) :
    dropUpd w cs pid pos e = { e with transform := some pos } := by
  simp [dropUpd, h1, h2]

/-- C10: applying `DropItem` detaches and repositions exactly the item
children of the target player: every child passing the item query has its
translation set to the event position (they all get the same position) and is
removed from the player's children, while non-item children and unrelated
entities are byte-for-byte unchanged (same record, hence same parent/children
and transform). -/
theorem spec_c10 (w : World) (p : Nat) (pos : Vec3) (pl : GameEntity)
    (cs : List Nat)
    (hfind : findPlayer w p = some pl) (hcs : pl.children = some cs)
    (hself : pl.id ∉ cs) :
    (∀ x ∈ dropItem w p pos, x.id ∈ cs → isItemQuery w x.id = true →
        x.transform = some pos)
    ∧ (∀ x ∈ w, x.id ∈ cs → isItemQuery w x.id = true →
        { x with transform := some pos } ∈ dropItem w p pos)
    ∧ (∀ x ∈ w, x.id ∉ cs → x.id ≠ pl.id → x ∈ dropItem w p pos)
    ∧ (∀ x ∈ w, isItemQuery w x.id = false → x.id ≠ pl.id →
        x ∈ dropItem w p pos)
    ∧ (∀ x ∈ dropItem w p pos, x.id = pl.id →
        x.children = some (cs.filter (fun c => !isItemQuery w c)))
    ∧ (∀ c ∈ cs, isItemQuery w c = false →
        c ∈ cs.filter (fun c => !isItemQuery w c))
    ∧ (∀ c ∈ cs, isItemQuery w c = true →
        c ∉ cs.filter (fun c => !isItemQuery w c)) := by
  rw [dropItem_eq w p pos pl cs hfind hcs]
  refine ⟨?_, ?_, ?_, ?_, ?_, ?_, ?_⟩
  · intro x hx hid hitem
    obtain ⟨y, _, hxy⟩ := List.mem_map.mp hx
    subst hxy
    have hyid := dropUpd_id w cs pl.id pos y
    rw [hyid] at hid hitem
    exact dropUpd_item w cs pl.id pos y hid hitem
  · intro x hx hid hitem
    exact List.mem_map.mpr ⟨x, hx, dropUpd_item_eq w cs pl.id pos x hid hitem⟩
  · intro x hx hid hne
    exact List.mem_map.mpr ⟨x, hx, dropUpd_untouched w cs pl.id pos x hid hne⟩
  · intro x hx hitem hne
    exact List.mem_map.mpr ⟨x, hx, dropUpd_nonitem w cs pl.id pos x hitem hne⟩
  · intro x hx hid
    obtain ⟨y, _, hxy⟩ := List.mem_map.mp hx
    subst hxy
    have hyid := dropUpd_id w cs pl.id pos y
    rw [hyid] at hid
    exact dropUpd_player w cs pl.id pos y hid hself
  · intro c hc hitem
    exact List.mem_filter.mpr ⟨hc, by simp [hitem]⟩
  · intro c hc hitem
    intro hmem
    have := (List.mem_filter.mp hmem).2
    simp [hitem] at this

/-- Witness for C10: dropping on the scenario world repositions the held item
to the drop position, keeps the non-item child attached, and filters only the
item out of the holder's children. -/
theorem spec_c10_witness :
    { scnItem with transform := some ⟨7, 7, 7⟩ } ∈ dropItem scnWorld 0 ⟨7, 7, 7⟩
    ∧ scnChild ∈ dropItem scnWorld 0 ⟨7, 7, 7⟩
    ∧ (30 : Nat) ∈ ([20, 30] : List Nat).filter
        (fun c => !isItemQuery scnWorld c) :=
  ⟨(spec_c10 scnWorld 0 ⟨7, 7, 7⟩ scnHolder [20, 30] rfl rfl
      (by decide)).2.1 scnItem (by simp [scnWorld]) (by decide) rfl,
   (spec_c10 scnWorld 0 ⟨7, 7, 7⟩ scnHolder [20, 30] rfl rfl
      (by decide)).2.2.2.1 scnChild (by simp [scnWorld]) rfl (by decide),
   (spec_c10 scnWorld 0 ⟨7, 7, 7⟩ scnHolder [20, 30] rfl rfl
      (by decide)).2.2.2.2.2.1 30 (by decide) rfl⟩

end FishFight
